import Mathlib

/-!
Shallow embedding of the nfd-worker core (pkg/nfd-worker/nfd-worker.go) and
proofs about its feature-aggregation pipeline, configuration decoding,
connection lifecycle and event loop.

Modelling conventions:
* Go strings are Lean `String`s; `strings.SplitN(k, "/", 2)` is modelled by
  `splitFirst` on the underlying character list.
* The external validators `validation.IsQualifiedName` and
  `validation.IsValidLabelValue` (k8s.io/apimachinery) and the compiled
  whitelist regexp are opaque to this repository; they are parameters
  (`Validators`, `wl : String → Bool`).
* A feature source (`source.FeatureSource`) is modelled by its name, whether
  its dynamic type is `*local.Source` (the type-switch in `getFeatureLabels`),
  and the outcome of its `Discover()` call: a feature map (rendered to
  strings, as `fmt.Sprintf` with percent-v does), an error, or a panic.
  The deferred `recover` in `getFeatureLabels` turns a panic into an
  ordinary error return; on any error return the caller drops the labels.
* Go maps (`Labels`) are modelled as functions `String → Option String`;
  map assignment is `labelsInsert` (later assignments win).
-/

/-- Outcome of a feature source's `Discover()` call. `crash` models a panic
raised inside the source, recovered by the deferred handler in
`getFeatureLabels`. -/
inductive DiscoverResult where
  | ok (features : List (String × String))
  | fail (msg : String)
  | crash (msg : String)
deriving DecidableEq

/-- Model of `source.FeatureSource` as used by the worker: its `Name()`, the
dynamic-type test `*local.Source` from the switch in `getFeatureLabels`, and
the outcome of `Discover()`. -/
structure FeatureSource where
  name : String
  isLocalSource : Bool
  discover : DiscoverResult
deriving DecidableEq

/-- The two external syntactic validators from k8s.io/apimachinery, treated as
black boxes (parameters of the pipeline). -/
structure Validators where
  isQualifiedName : String → Bool
  isValidLabelValue : String → Bool

/-- `strings.SplitN(k, "/", 2)` on the character list: `none` when the list
holds no slash (Go returns a one-element slice), otherwise the part before
the first slash and everything after it. -/
def splitFirst : List Char → Option (List Char × List Char)
  | [] => none
  | c :: cs =>
    if c = '/' then some ([], cs)
    else
      match splitFirst cs with
      | none => none
      | some (a, b) => some (c :: a, b)

/-- The per-source label name pfx: empty for `*local.Source`, otherwise
`source.Name() + "-"` (lines 445-450 of nfd-worker.go). -/
def namePfx (s : FeatureSource) : String :=
  if s.isLocalSource then "" else s.name ++ "-"

/-- One iteration of the feature loop of `getFeatureLabels` for a raw
(key, rendered value) pair: compute `label`, `nameForValidation` and
`nameForWhiteListing`, run the three checks in the source's order, and
return the surviving (label, value) pair, or `none` when any check rejects
it. -/
def processKey (pfx : String) (vals : Validators) (wl : String → Bool)
    (k v : String) : Option (String × String) :=
  match splitFirst k.data with
  | none =>
    let label := pfx ++ k
    if vals.isQualifiedName ("ns/" ++ label) = false then none
    else if vals.isValidLabelValue v = false then none
    else if wl label = false then none
    else some (label, v)
  | some (_, nm) =>
    if vals.isQualifiedName k = false then none
    else if vals.isValidLabelValue v = false then none
    else if wl (String.mk nm) = false then none
    else some (k, v)

/-- `getFeatureLabels`: discovery for one source. A `Discover` error is
returned as-is; a panic is recovered and converted into an ordinary error
(the deferred handler at lines 431-436); on success each raw pair runs
through `processKey`. (On the panic path Go also hands back the partially
built map next to the non-nil error; the caller never reads it, so the
embedding keeps only the error.) -/
def getFeatureLabels (vals : Validators) (wl : String → Bool)
    (s : FeatureSource) : Except String (List (String × String)) :=
  match s.discover with
  | .ok features =>
    .ok (features.filterMap fun kv => processKey (namePfx s) vals wl kv.1 kv.2)
  | .fail msg => .error msg
  | .crash msg => .error msg

/-- The worker's `Labels` map, as a finite map from label name to value. -/
def Labels := String → Option String

/-- The empty `Labels` map (`Labels{}`). -/
def emptyLabels : Labels := fun _ => none

/-- Go map assignment `labels[k] = v`. -/
def labelsInsert (m : Labels) (k v : String) : Labels :=
  fun q => if q = k then some v else m q

/-- Assign every pair of `l` into `m`, in list order (later pairs win, as in
a sequential Go range-and-assign loop). -/
def insertAll (m : Labels) (l : List (String × String)) : Labels :=
  l.foldl (fun acc kv => labelsInsert acc kv.1 kv.2) m

/-- The label map contributed by one source: empty when `getFeatureLabels`
reports an error (the caller logs and continues), its surviving pairs
otherwise. -/
def sourceLabels (vals : Validators) (wl : String → Bool)
    (s : FeatureSource) : Labels :=
  match getFeatureLabels vals wl s with
  | .error _ => emptyLabels
  | .ok l => insertAll emptyLabels l

/-- `createFeatureLabels`: run every source in order, skip a source whose
discovery failed, and merge the survivors into one map (lines 407-426). -/
def createFeatureLabels (vals : Validators) (wl : String → Bool)
    (sources : List FeatureSource) : Labels :=
  sources.foldl
    (fun acc s =>
      match getFeatureLabels vals wl s with
      | .error _ => acc
      | .ok l => insertAll acc l)
    emptyLabels

/-- A source whose `Discover()` does not return a feature map (error or
panic). -/
def sourceFails (s : FeatureSource) : Bool :=
  match s.discover with
  | .ok _ => false
  | .fail _ => true
  | .crash _ => true

theorem splitFirst_eq_none (l : List Char) (h : '/' ∉ l) : splitFirst l = none := by
  induction l with
  | nil => rfl
  | cons c cs ih =>
    simp only [List.mem_cons, not_or] at h
    unfold splitFirst
    rw [if_neg fun hc => h.1 hc.symm, ih h.2]

theorem splitFirst_append (a b : List Char) (h : '/' ∉ a) :
    splitFirst (a ++ '/' :: b) = some (a, b) := by
  induction a with
  | nil => simp [splitFirst]
  | cons c cs ih =>
    simp only [List.mem_cons, not_or] at h
    simp only [List.cons_append]
    unfold splitFirst
    rw [if_neg fun hc => h.1 hc.symm, ih h.2]

theorem string_empty_append (s : String) : "" ++ s = s := by
  cases s
  rfl

/-- The final label name computed for a raw key, as a function of the active
label-name pfx: prefixed when the key holds no slash, verbatim otherwise. -/
def labelName (pfx k : String) : String :=
  match splitFirst k.data with
  | none => pfx ++ k
  | some _ => k

/-- The conjunction of the three per-label checks of `getFeatureLabels`:
qualified-name validation, label-value validation, whitelist match against
the unnamespaced name part. -/
def passesChecks (pfx : String) (vals : Validators) (wl : String → Bool)
    (k v : String) : Bool :=
  match splitFirst k.data with
  | none =>
    vals.isQualifiedName ("ns/" ++ (pfx ++ k)) && vals.isValidLabelValue v &&
      wl (pfx ++ k)
  | some (_, nm) =>
    vals.isQualifiedName k && vals.isValidLabelValue v && wl (String.mk nm)

theorem processKey_eq (pfx : String) (vals : Validators) (wl : String → Bool)
    (k v : String) :
    processKey pfx vals wl k v =
      if passesChecks pfx vals wl k v = true then some (labelName pfx k, v)
      else none := by
  unfold processKey passesChecks labelName
  cases hs : splitFirst k.data with
  | none =>
    cases h1 : vals.isQualifiedName ("ns/" ++ (pfx ++ k)) <;>
      cases h2 : vals.isValidLabelValue v <;>
        cases h3 : wl (pfx ++ k) <;> simp [h1, h2, h3]
  | some ab =>
    obtain ⟨a, nm⟩ := ab
    cases h1 : vals.isQualifiedName k <;>
      cases h2 : vals.isValidLabelValue v <;>
        cases h3 : wl (String.mk nm) <;> simp [h1, h2, h3]

theorem insertAll_lookup (l : List (String × String)) (m : Labels) (x : String) :
    insertAll m l x =
      match insertAll emptyLabels l x with
      | some w => some w
      | none => m x := by
  induction l generalizing m with
  | nil => rfl
  | cons kv t ih =>
    show insertAll (labelsInsert m kv.1 kv.2) t x = _
    rw [ih]
    conv_rhs =>
      rw [show insertAll emptyLabels (kv :: t) x
            = insertAll (labelsInsert emptyLabels kv.1 kv.2) t x from rfl, ih]
    cases h : insertAll emptyLabels t x with
    | some w => rfl
    | none =>
      show labelsInsert m kv.1 kv.2 x = _
      unfold labelsInsert emptyLabels
      by_cases hx : x = kv.1
      · simp [hx]
      · simp [hx]

theorem insertAll_not_mem (l : List (String × String)) (x : String)
    (h : ∀ p ∈ l, p.1 ≠ x) : ∀ m : Labels, insertAll m l x = m x := by
  induction l with
  | nil => intro m; rfl
  | cons kv t ih =>
    intro m
    have h1 : kv.1 ≠ x := h kv (List.mem_cons_self kv t)
    have h2 : ∀ p ∈ t, p.1 ≠ x := fun p hp => h p (List.mem_cons_of_mem _ hp)
    show insertAll (labelsInsert m kv.1 kv.2) t x = m x
    rw [ih h2]
    unfold labelsInsert
    rw [if_neg fun hx => h1 hx.symm]

theorem labelStep_lookup (vals : Validators) (wl : String → Bool)
    (acc : Labels) (s : FeatureSource) (x : String) :
    (match getFeatureLabels vals wl s with
     | .error _ => acc
     | .ok l => insertAll acc l) x =
      match sourceLabels vals wl s x with
      | some w => some w
      | none => acc x := by
  unfold sourceLabels
  cases h : getFeatureLabels vals wl s with
  | error e => simp [emptyLabels]
  | ok l => simp [insertAll_lookup l acc x]

theorem foldl_lookup_unchanged (vals : Validators) (wl : String → Bool)
    (x : String) :
    ∀ (post : List FeatureSource) (acc : Labels),
      (∀ s ∈ post, sourceLabels vals wl s x = none) →
      (List.foldl
        (fun acc s =>
          match getFeatureLabels vals wl s with
          | .error _ => acc
          | .ok l => insertAll acc l) acc post) x = acc x := by
  intro post
  induction post with
  | nil => intro acc _; rfl
  | cons s t ih =>
    intro acc h
    rw [List.foldl_cons, ih _ (fun s2 hs2 => h s2 (List.mem_cons_of_mem _ hs2))]
    rw [labelStep_lookup, h s (List.mem_cons_self s t)]

/-- Claim C1: if one source's discovery returns an error or panics, that
source contributes no labels, the panic is converted into an ordinary error,
and every other source's surviving labels are unchanged: aggregation over a
list containing the failing source equals aggregation with it removed. -/
theorem c1_source_failure_isolated (vals : Validators) (wl : String → Bool)
    (pre post : List FeatureSource) (s : FeatureSource)
    (h : sourceFails s = true) :
    (∃ msg, getFeatureLabels vals wl s = Except.error msg) ∧
    (∀ m, s.discover = DiscoverResult.crash m →
      getFeatureLabels vals wl s = Except.error m) ∧
    createFeatureLabels vals wl (pre ++ s :: post) =
      createFeatureLabels vals wl (pre ++ post) := by
  have herr : ∃ msg, getFeatureLabels vals wl s = Except.error msg := by
    unfold sourceFails at h
    unfold getFeatureLabels
    cases hd : s.discover with
    | ok f => rw [hd] at h; simp at h
    | fail m => exact ⟨m, rfl⟩
    | crash m => exact ⟨m, rfl⟩
  refine ⟨herr, ?_, ?_⟩
  · intro m hm
    unfold getFeatureLabels
    rw [hm]
  · obtain ⟨msg, hmsg⟩ := herr
    unfold createFeatureLabels
    rw [List.foldl_append, List.foldl_append, List.foldl_cons]
    simp only [hmsg]

/-- Claim C2: a raw key holding no slash is emitted under the name
`name(P) ++ "-" ++ k`, except for the designated local source, whose keys
are emitted unchanged. -/
theorem c2_unqualified_key_prefixed (vals : Validators) (wl : String → Bool)
    (s : FeatureSource) (k v l v2 : String)
    (hk : '/' ∉ k.data)
    (hp : processKey (namePfx s) vals wl k v = some (l, v2)) :
    l = if s.isLocalSource then k else s.name ++ "-" ++ k := by
  rw [processKey_eq] at hp
  have hn : labelName (namePfx s) k = namePfx s ++ k := by
    unfold labelName
    rw [splitFirst_eq_none k.data hk]
  split at hp
  · simp only [Option.some.injEq, Prod.mk.injEq] at hp
    rw [← hp.1, hn]
    unfold namePfx
    by_cases hloc : s.isLocalSource
    · simp [hloc, string_empty_append]
    · simp [hloc, String.append_assoc]
  · exact absurd hp (by simp)

/-- Claim C3: a raw key of the form ns/name is emitted verbatim with no
source pfx applied, and the whitelist is matched against the name part
after the slash only. -/
theorem c3_namespaced_key_verbatim (vals : Validators) (wl : String → Bool)
    (s : FeatureSource) (ns nm v : String)
    (hns : '/' ∉ ns.data) :
    processKey (namePfx s) vals wl (ns ++ "/" ++ nm) v =
      if (vals.isQualifiedName (ns ++ "/" ++ nm) && vals.isValidLabelValue v &&
          wl nm) = true
      then some (ns ++ "/" ++ nm, v) else none := by
  have hdata : (ns ++ "/" ++ nm).data = ns.data ++ '/' :: nm.data := by
    rw [String.data_append, String.data_append]
    simp
  have hsplit : splitFirst (ns ++ "/" ++ nm).data = some (ns.data, nm.data) := by
    rw [hdata]
    exact splitFirst_append ns.data nm.data hns
  rw [processKey_eq]
  unfold passesChecks labelName
  simp only [hsplit]

/-- Claim C4: when a later source produces label x (and no source after it
does), the aggregated set holds the later source's value for x, whatever any
earlier sources produced. -/
theorem c4_later_source_overrides (vals : Validators) (wl : String → Bool)
    (pre post : List FeatureSource) (b : FeatureSource) (x vb : String)
    (hb : sourceLabels vals wl b x = some vb)
    (hpost : ∀ s ∈ post, sourceLabels vals wl s x = none) :
    createFeatureLabels vals wl (pre ++ b :: post) x = some vb := by
  unfold createFeatureLabels
  rw [List.foldl_append, List.foldl_cons]
  rw [foldl_lookup_unchanged vals wl x post _ hpost]
  rw [labelStep_lookup, hb]

theorem mem_filterMap_processKey (pfx : String) (vals : Validators)
    (wl : String → Bool) (t : List (String × String)) (p : String × String)
    (hp : p ∈ t.filterMap fun kv => processKey pfx vals wl kv.1 kv.2) :
    p.1 ∈ t.map fun kv => labelName pfx kv.1 := by
  rw [List.mem_filterMap] at hp
  obtain ⟨a, ha, hpa⟩ := hp
  rw [processKey_eq] at hpa
  split at hpa
  · simp only [Option.some.injEq] at hpa
    rw [← hpa]
    exact List.mem_map_of_mem _ ha
  · exact absurd hpa (by simp)

theorem lookup_source_list (pfx : String) (vals : Validators)
    (wl : String → Bool) :
    ∀ (features : List (String × String)) (k v : String),
      (k, v) ∈ features →
      (features.map fun kv => labelName pfx kv.1).Nodup →
      insertAll emptyLabels
        (features.filterMap fun kv => processKey pfx vals wl kv.1 kv.2)
        (labelName pfx k) =
        (if passesChecks pfx vals wl k v = true then some v else none) := by
  intro features
  induction features with
  | nil => intro k v hmem _; exact absurd hmem (List.not_mem_nil _)
  | cons kv0 t ih =>
    obtain ⟨k0, v0⟩ := kv0
    intro k v hmem hnodup
    rw [List.map_cons, List.nodup_cons] at hnodup
    rcases List.mem_cons.mp hmem with heq | hmem2
    · injection heq with h1 h2
      subst h1
      subst h2
      have hnm : ∀ p ∈ (t.filterMap fun kv => processKey pfx vals wl kv.1 kv.2),
          p.1 ≠ labelName pfx k := by
        intro p hp hfst
        apply hnodup.1
        rw [← hfst]
        exact mem_filterMap_processKey pfx vals wl t p hp
      simp only [List.filterMap_cons]
      rw [processKey_eq]
      cases hpass : passesChecks pfx vals wl k v with
      | true =>
        rw [if_pos rfl, if_pos rfl]
        show insertAll (labelsInsert emptyLabels (labelName pfx k) v) _ _ = _
        rw [insertAll_not_mem _ _ hnm]
        unfold labelsInsert
        simp
      | false =>
        rw [if_neg (by simp), if_neg (by simp)]
        rw [insertAll_not_mem _ _ hnm]
        rfl
    · have hne : labelName pfx k0 ≠ labelName pfx k := by
        intro he
        apply hnodup.1
        rw [he]
        exact List.mem_map_of_mem _ hmem2
      simp only [List.filterMap_cons]
      rw [processKey_eq]
      cases hpass0 : passesChecks pfx vals wl k0 v0 with
      | true =>
        rw [if_pos rfl]
        show insertAll (labelsInsert emptyLabels (labelName pfx k0) v0) _ _ = _
        rw [insertAll_lookup, ih k v hmem2 hnodup.2]
        cases hkv : passesChecks pfx vals wl k v with
        | true => rfl
        | false =>
          show labelsInsert emptyLabels (labelName pfx k0) v0 (labelName pfx k)
            = none
          unfold labelsInsert
          rw [if_neg fun he => hne he.symm]
          rfl
      | false =>
        rw [if_neg (by simp)]
        exact ih k v hmem2 hnodup.2

/-- Claim C5: for a source whose discovery succeeds, exactly the labels that
fail name validation, value validation or the whitelist are absent from that
source's result, every passing label is present with its value, and no error
is returned for validation failures. -/
theorem c5_validation_filters (vals : Validators) (wl : String → Bool)
    (s : FeatureSource) (features : List (String × String)) (k v : String)
    (hd : s.discover = DiscoverResult.ok features)
    (hmem : (k, v) ∈ features)
    (hnodup : (features.map fun kv => labelName (namePfx s) kv.1).Nodup) :
    (∃ l, getFeatureLabels vals wl s = Except.ok l) ∧
    sourceLabels vals wl s (labelName (namePfx s) k) =
      (if passesChecks (namePfx s) vals wl k v = true then some v else none) := by
  constructor
  · exact ⟨_, by unfold getFeatureLabels; rw [hd]⟩
  · simp only [sourceLabels, getFeatureLabels, hd]
    exact lookup_source_list (namePfx s) vals wl features k v hmem hnodup

/-- All-accepting validators, for concrete instantiations. -/
def vTrue : Validators := ⟨fun _ => true, fun _ => true⟩

/-- The all-accepting whitelist predicate. -/
def wlTrue : String → Bool := fun _ => true

/-- A concrete cpu source discovering one feature. -/
def srcCpu : FeatureSource := ⟨"cpu", false, .ok [("model", "x86_64")]⟩

/-- A concrete local (override) source discovering one feature. -/
def srcLocal : FeatureSource := ⟨"local", true, .ok [("cpu-model", "arm64")]⟩

/-- A concrete source whose discovery panics. -/
def srcCrash : FeatureSource := ⟨"fake-panic", false, .crash "boom"⟩

/-- Witness for C1: a crashing source in the middle of the list leaves the
aggregate unchanged. -/
theorem c1_witness :
    createFeatureLabels vTrue wlTrue ([srcCpu] ++ srcCrash :: []) =
      createFeatureLabels vTrue wlTrue ([srcCpu] ++ []) :=
  (c1_source_failure_isolated vTrue wlTrue [srcCpu] [] srcCrash rfl).2.2

/-- Witness for C2: key "model" from the cpu source is emitted as
"cpu-model". -/
theorem c2_witness :
    ("cpu-model" : String) =
      if srcCpu.isLocalSource then "model" else srcCpu.name ++ "-" ++ "model" :=
  c2_unqualified_key_prefixed vTrue wlTrue srcCpu "model" "x86_64" "cpu-model"
    "x86_64" (by decide) (by decide)

/-- Witness for C3: a namespaced key passes through verbatim and the
whitelist sees only the part after the slash. -/
theorem c3_witness :
    processKey (namePfx srcCpu) vTrue wlTrue ("vendor" ++ "/" ++ "feat") "1" =
      (if (vTrue.isQualifiedName ("vendor" ++ "/" ++ "feat") &&
           vTrue.isValidLabelValue "1" && wlTrue "feat") = true
       then some (("vendor" ++ "/" ++ "feat"), "1") else none) :=
  c3_namespaced_key_verbatim vTrue wlTrue srcCpu "vendor" "feat" "1" (by decide)

/-- Witness for C4: the later local source's "cpu-model" wins over the cpu
source's value (end-to-end scenario 1 of the spec). -/
theorem c4_witness :
    createFeatureLabels vTrue wlTrue ([srcCpu] ++ srcLocal :: []) "cpu-model" =
      some "arm64" :=
  c4_later_source_overrides vTrue wlTrue [srcCpu] [] srcLocal "cpu-model"
    "arm64" (by decide) (by simp)

/-- Witness for C5 at the concrete cpu source. -/
theorem c5_witness :
    sourceLabels vTrue wlTrue srcCpu (labelName (namePfx srcCpu) "model") =
      (if passesChecks (namePfx srcCpu) vTrue wlTrue "model" "x86_64" = true
       then some "x86_64" else none) :=
  (c5_validation_filters vTrue wlTrue srcCpu [("model", "x86_64")] "model"
    "x86_64" rfl (by decide) (by decide)).2

/-!
Configuration decoding: `sourcesConfig.UnmarshalJSON` (lines 515-536).
The pre-populated per-source config map and the raw per-source document
sections are association lists of opaque blobs (modelled as `String`);
`decode` stands for the per-source `yaml.Unmarshal(rawv, &v)` call, which
may fail. Go map iteration order is unspecified, so the raw-section list
models one possible iteration order; a behaviour the claim asserts must
hold for every order. The Go loop mutates the pre-populated map in place
and returns at the FIRST per-source decode error, so the function yields
the map as mutated so far together with an optional named error.
-/

/-- The pre-populated sourcesConfig: source name to its config blob. -/
def SourcesCfg := List (String × String)

/-- Map lookup on the pre-populated config. -/
def cfgLookup : SourcesCfg → String → Option String
  | [], _ => none
  | (k, v) :: rest, x => if x = k then some v else cfgLookup rest x

/-- In-place overwrite of one source's config blob. -/
def cfgUpdate : SourcesCfg → String → String → SourcesCfg
  | [], _, _ => []
  | (k, v) :: rest, x, nv =>
    if k = x then (k, nv) :: cfgUpdate rest x nv
    else (k, v) :: cfgUpdate rest x nv

/-- The named error built by `fmt.Errorf` for a failing source section. -/
def srcCfgErrMsg (k e : String) : String :=
  "failed to parse \"" ++ k ++ "\" source config: " ++ e

/-- `sourcesConfig.UnmarshalJSON` after the successful raw parse: walk the
raw sections in iteration order; a key absent from the pre-populated map is
ignored; a known key is decoded, an error stopping the walk with a named
error, success overwriting that key's blob. -/
def unmarshalSourcesCfg (decode : String → String → Except String String) :
    SourcesCfg → List (String × String) → SourcesCfg × Option String
  | c, [] => (c, none)
  | c, (k, rawv) :: rest =>
    match cfgLookup c k with
    | none => unmarshalSourcesCfg decode c rest
    | some _ =>
      match decode k rawv with
      | .error e => (c, some (srcCfgErrMsg k e))
      | .ok nv => unmarshalSourcesCfg decode (cfgUpdate c k nv) rest

/-- A concrete per-source decoder failing exactly on the blob "bad". -/
def decodeEx (k rawv : String) : Except String String :=
  if rawv = "bad" then Except.error "syntax" else Except.ok (k ++ ":" ++ rawv)

/-- Counterexample to C6 as stated: the section of known source "a" fails to
decode, and the decodable section of known source "b", later in iteration
order, is NOT applied ("b" keeps its pre-populated blob), because the Go
loop returns at the first failure. -/
theorem c6_counterexample :
    (unmarshalSourcesCfg decodeEx [("a", "defA"), ("b", "defB")]
        [("a", "bad"), ("b", "good")]).2 =
      some (srcCfgErrMsg "a" "syntax") ∧
    decodeEx "b" "good" = Except.ok ("b:good") ∧
    cfgLookup (unmarshalSourcesCfg decodeEx [("a", "defA"), ("b", "defB")]
        [("a", "bad"), ("b", "good")]).1 "b" = some "defB" := by
  constructor
  · rfl
  · constructor
    · rfl
    · rfl

/-- Claim C6 (amended): unknown source names are ignored; a decode failure
for a known source's section yields a named error for that key and stops the
walk at that point, so sections already applied are kept but sections not
yet processed are not applied. -/
theorem c6_decode_stops_at_first_error
    (decode : String → String → Except String String)
    (c : SourcesCfg) (k rawv : String) (rest : List (String × String)) :
    (cfgLookup c k = none →
      unmarshalSourcesCfg decode c ((k, rawv) :: rest) =
        unmarshalSourcesCfg decode c rest) ∧
    (∀ v e, cfgLookup c k = some v → decode k rawv = Except.error e →
      unmarshalSourcesCfg decode c ((k, rawv) :: rest) =
        (c, some (srcCfgErrMsg k e))) ∧
    (∀ v nv, cfgLookup c k = some v → decode k rawv = Except.ok nv →
      unmarshalSourcesCfg decode c ((k, rawv) :: rest) =
        unmarshalSourcesCfg decode (cfgUpdate c k nv) rest) := by
  refine ⟨?_, ?_, ?_⟩
  · intro h
    simp only [unmarshalSourcesCfg, h]
  · intro v e hv he
    simp only [unmarshalSourcesCfg, hv, he]
  · intro v nv hv hnv
    simp only [unmarshalSourcesCfg, hv, hnv]

/-- Witness for the amended C6 at concrete inputs: an unknown key is
skipped, and a failing known key stops the walk with its named error. -/
theorem c6_witness :
    unmarshalSourcesCfg decodeEx [("b", "defB")] [("zz", "x"), ("b", "good")] =
      unmarshalSourcesCfg decodeEx [("b", "defB")] [("b", "good")] ∧
    unmarshalSourcesCfg decodeEx [("b", "defB")] [("b", "bad")] =
      ([("b", "defB")], some (srcCfgErrMsg "b" "syntax")) :=
  ⟨(c6_decode_stops_at_first_error decodeEx [("b", "defB")] "zz" "x"
      [("b", "good")]).1 (by rfl),
   (c6_decode_stops_at_first_error decodeEx [("b", "defB")] "b" "bad"
      []).2.1 "defB" "syntax" (by rfl) (by rfl)⟩

/-!
Connection lifecycle and event loop (`connect`, `disconnect`, `Run`;
lines 221-363). The worker state keeps the fields the loop reads or
writes: the client connection (`clientConn`/`client` are set and cleared
together, so one `Option Unit` stands for both), the current core config
(`w.config.Core.NoPublish`), and the startup args the loop consults
(`Oneshot`, `SleepInterval` in nanoseconds, as Go's `time.Duration`).
External outcomes (TLS material loading, the gRPC dial, the advertise RPC)
are inputs: `DialEnv` carries the TLS/dial outcomes, and the label-timer
event carries the advertise outcome. Timer arming (`time.After`) and the
report call are recorded as `LoopAct`s; watcher rebuilding has no effect on
these fields and is not recorded.
-/

/-- Worker configuration core section (`coreConfig`). -/
structure WorkerConfig where
  noPublish : Bool
deriving DecidableEq

/-- The mutable worker fields the event loop touches. -/
structure WorkerState where
  client : Option Unit
  cfg : WorkerConfig
  oneshot : Bool
  sleepInterval : Int
deriving DecidableEq

/-- Outcomes of the external steps of `connect`: whether any TLS file was
configured, whether loading the TLS material succeeds, and whether the
gRPC dial succeeds, with the opaque error texts. -/
structure DialEnv where
  tlsConfigured : Bool
  tlsLoadOk : Bool
  tlsErrMsg : String
  dialOk : Bool
  dialErrMsg : String
deriving DecidableEq

/-- `connect` (lines 306-354): returns the new worker state, the error
returned to the caller, and whether a dial was attempted. Dry-run returns
early with success and no dial; an existing connection is an error; failed
TLS material loading is an error before dialing; a failed dial returns the
dial error with the state unchanged; success stores the connection and
client. -/
def connect (s : WorkerState) (env : DialEnv) :
    WorkerState × Option String × Bool :=
  if s.cfg.noPublish then (s, none, false)
  else if s.client.isSome then (s, some "client connection already exists", false)
  else if env.tlsConfigured && !env.tlsLoadOk then (s, some env.tlsErrMsg, false)
  else if !env.dialOk then (s, some env.dialErrMsg, true)
  else ({ s with client := some () }, none, true)

/-- `disconnect` (lines 357-363): closing is idempotent; both fields are
cleared. -/
def disconnect (s : WorkerState) : WorkerState :=
  { s with client := none }

/-- One wakeup of the `select` loop in `Run`: the label timer fired (with
the advertise outcome for the case a report is attempted), a filesystem
event arrived (relevant when its cleaned path is in the watch set), a
watcher error arrived, or the debounced config timer fired (with the
effective configuration produced by `configure` and the dial outcomes for a
possible reconnect). -/
inductive Event where
  | labelTimer (advOk : Bool)
  | fsEvent (relevant : Bool)
  | fsError
  | configTimer (newCfg : WorkerConfig) (env : DialEnv)
deriving DecidableEq


/-- Externally visible effects of one loop iteration. -/
inductive LoopAct where
  | report
  | armLabelTimer (delayNs : Int)
  | armConfigTimer
deriving DecidableEq

/-- Result of one loop iteration: keep running with a new state, return
successfully (one-shot), or return a fatal error. -/
inductive StepResult where
  | cont (s : WorkerState) (acts : List LoopAct)
  | finished (acts : List LoopAct)
  | fatal (msg : String) (acts : List LoopAct)
deriving DecidableEq

/-- The actions of a step result. -/
def stepActions : StepResult → List LoopAct
  | .cont _ acts => acts
  | .finished acts => acts
  | .fatal _ acts => acts

/-- The continuation state of a step result, when the loop keeps running. -/
def stepState : StepResult → Option WorkerState
  | .cont s _ => some s
  | .finished _ => none
  | .fatal _ _ => none

/-- One iteration of the `select` loop of `Run` (lines 241-302):
* label timer: discover (pure), report when a client exists (fatal on
  failure), return on one-shot, re-arm the label timer when a positive
  sleep interval is configured;
* filesystem event: when relevant, rebuild the watcher and arm the
  one-second debounce timer;
* watcher error: log only;
* config timer: install the freshly loaded configuration, then disconnect
  when dry-run is now set, or connect when no connection exists (fatal on
  failure), and always force an immediate re-label. -/
def step (s : WorkerState) (ev : Event) : StepResult :=
  match ev with
  | .labelTimer advOk =>
    if s.client.isSome then
      if advOk then
        if s.oneshot then .finished [.report]
        else if 0 < s.sleepInterval then
          .cont s [.report, .armLabelTimer s.sleepInterval]
        else .cont s [.report]
      else .fatal "failed to advertise labels" [.report]
    else
      if s.oneshot then .finished []
      else if 0 < s.sleepInterval then .cont s [.armLabelTimer s.sleepInterval]
      else .cont s []
  | .fsEvent relevant =>
    if relevant then .cont s [.armConfigTimer] else .cont s []
  | .fsError => .cont s []
  | .configTimer newCfg env =>
    let s1 : WorkerState := { s with cfg := newCfg }
    if newCfg.noPublish then
      .cont (disconnect s1) [.armLabelTimer 0]
    else if s1.client.isNone then
      match connect s1 env with
      | (s2, none, _) => .cont s2 [.armLabelTimer 0]
      | (_, some e, _) => .fatal e []
    else .cont s1 [.armLabelTimer 0]

/-- States the worker can be in when the loop waits for the next event: the
state right after the startup sequence of `Run` (initial `configure` with
effective core config `cfg`, then a successful `connect`), or the
continuation state of a further loop iteration. -/
inductive Reachable : WorkerState → Prop
  | start (cfg : WorkerConfig) (env : DialEnv) (os : Bool) (si : Int)
      (s1 : WorkerState) (dialed : Bool) :
      connect ⟨none, cfg, os, si⟩ env = (s1, none, dialed) → Reachable s1
  | next (s : WorkerState) (ev : Event) (s2 : WorkerState)
      (acts : List LoopAct) :
      Reachable s → step s ev = .cont s2 acts → Reachable s2

/-- The dry-run invariant: whenever the effective configuration disables
publishing, no client connection is held. -/
def dryInv (s : WorkerState) : Prop := s.cfg.noPublish = true → s.client = none

theorem connect_dryInv (s : WorkerState) (env : DialEnv) (s1 : WorkerState)
    (e : Option String) (d : Bool) (hs : s.client = none)
    (hc : connect s env = (s1, e, d)) : dryInv s1 := by
  unfold connect at hc
  intro hnp1
  by_cases hnp : s.cfg.noPublish = true
  · rw [if_pos hnp] at hc
    injection hc with h1 h2
    rw [← h1, hs]
  · rw [if_neg hnp, if_neg (by simp [hs])] at hc
    split at hc
    · injection hc with h1 h2
      rw [← h1] at hnp1
      exact absurd hnp1 hnp
    · split at hc
      · injection hc with h1 h2
        rw [← h1] at hnp1
        exact absurd hnp1 hnp
      · injection hc with h1 h2
        rw [← h1] at hnp1
        exact absurd hnp1 hnp

theorem step_dryInv (s : WorkerState) (ev : Event) (s2 : WorkerState)
    (acts : List LoopAct) (hinv : dryInv s) (hs : step s ev = .cont s2 acts) :
    dryInv s2 := by
  cases ev with
  | labelTimer advOk =>
    simp only [step] at hs
    repeat' split at hs
    all_goals
      first
        | (injection hs with h1 h2; subst h1; exact hinv)
        | simp at hs
  | fsEvent relevant =>
    simp only [step] at hs
    split at hs
    · injection hs with h1 h2
      subst h1
      exact hinv
    · injection hs with h1 h2
      subst h1
      exact hinv
  | fsError =>
    simp only [step] at hs
    injection hs with h1 h2
    subst h1
    exact hinv
  | configTimer newCfg env =>
    simp only [step] at hs
    split at hs
    next hnp =>
      injection hs with h1 h2
      subst h1
      intro _
      rfl
    next hnp =>
      split at hs
      next hcl =>
        split at hs
        next s3 d heq =>
          injection hs with h1 h2
          subst h1
          exact connect_dryInv { s with cfg := newCfg } env s3 none d
            (Option.isNone_iff_eq_none.mp hcl) heq
        next a e2 d2 heq2 => simp at hs
      next hcl =>
        injection hs with h1 h2
        subst h1
        intro hnp2
        exact absurd hnp2 hnp

theorem reachable_dryInv (s : WorkerState) (h : Reachable s) : dryInv s := by
  induction h with
  | start cfg env os si s1 dialed hc =>
    exact connect_dryInv _ env _ none dialed rfl hc
  | next s ev s2 acts _ hstep ih => exact step_dryInv s ev s2 acts ih hstep

/-- Claim C7: in every reachable worker state whose effective configuration
sets disable-publish, handling any event attempts no report call; and a
reconfiguration cycle that enables dry-run leaves the loop running with the
connection torn down within that same cycle. -/
theorem c7_dry_run_invariant (s : WorkerState) (hreach : Reachable s) :
    (s.cfg.noPublish = true →
      ∀ ev : Event, LoopAct.report ∉ stepActions (step s ev)) ∧
    (∀ (newCfg : WorkerConfig) (env : DialEnv), newCfg.noPublish = true →
      stepState (step s (Event.configTimer newCfg env)) =
        some { s with cfg := newCfg, client := none }) := by
  have hinv := reachable_dryInv s hreach
  constructor
  · intro hnp ev
    have hcl : s.client = none := hinv hnp
    cases ev with
    | labelTimer advOk =>
      simp only [step, hcl]
      repeat' split
      all_goals simp_all [stepActions]
    | fsEvent relevant =>
      simp only [step]
      repeat' split
      all_goals simp_all [stepActions]
    | fsError => simp [step, stepActions]
    | configTimer newCfg env =>
      simp only [step]
      repeat' split
      all_goals simp_all [stepActions]
  · intro newCfg env hnp
    simp only [step]
    rw [if_pos hnp]
    rfl

/-- A concrete dry-run worker state, reachable right after startup with
disable-publish set. -/
def wDry : WorkerState := ⟨none, ⟨true⟩, false, 0⟩

/-- A dial environment where nothing is configured and the dial would
fail. -/
def envNone : DialEnv := ⟨false, false, "", false, ""⟩

/-- Witness for C7: in the dry-run startup state no report is attempted on
a label-timer wakeup. -/
theorem c7_witness :
    LoopAct.report ∉ stepActions (step wDry (Event.labelTimer true)) :=
  (c7_dry_run_invariant wDry
      (Reachable.start ⟨true⟩ envNone false 0 wDry false rfl)).1 rfl
    (Event.labelTimer true)

/-- Claim C8: `connect` is a no-op success without dialing under dry-run;
it errors when a connection already exists; and a failed dial returns the
dial error to the caller with the worker state unchanged (still
disconnected, nothing stored). -/
theorem c8_connect_lifecycle (s : WorkerState) (env : DialEnv) :
    (s.cfg.noPublish = true → connect s env = (s, none, false)) ∧
    (s.cfg.noPublish = false → s.client = some () →
      connect s env = (s, some "client connection already exists", false)) ∧
    (s.cfg.noPublish = false → s.client = none →
      (env.tlsConfigured = false ∨ env.tlsLoadOk = true) → env.dialOk = false →
      connect s env = (s, some env.dialErrMsg, true)) := by
  refine ⟨?_, ?_, ?_⟩
  · intro h
    unfold connect
    rw [if_pos h]
  · intro h1 h2
    unfold connect
    rw [if_neg (by simp [h1]), if_pos (by simp [h2])]
  · intro h1 h2 h3 h4
    unfold connect
    rw [if_neg (by simp [h1]), if_neg (by simp [h2]),
      if_neg (by rcases h3 with h | h <;> simp [h]), if_pos (by simp [h4])]

/-- A non-dry-run disconnected worker state. -/
def wOff : WorkerState := ⟨none, ⟨false⟩, false, 0⟩

/-- A dial environment without TLS material whose dial fails. -/
def envDialFail : DialEnv := ⟨false, false, "", false, "dial timeout"⟩

/-- Witness for C8 at concrete states: dry-run no-op, double-connect error,
dial failure leaving the state disconnected. -/
theorem c8_witness :
    connect wDry envNone = (wDry, none, false) ∧
    connect ⟨some (), ⟨false⟩, false, 0⟩ envNone =
      (⟨some (), ⟨false⟩, false, 0⟩,
        some "client connection already exists", false) ∧
    connect wOff envDialFail = (wOff, some "dial timeout", true) :=
  ⟨(c8_connect_lifecycle wDry envNone).1 rfl,
   (c8_connect_lifecycle ⟨some (), ⟨false⟩, false, 0⟩ envNone).2.1 rfl rfl,
   (c8_connect_lifecycle wOff envDialFail).2.2 rfl rfl (Or.inl rfl) rfl⟩

/-- Claim C9: after a completed non-one-shot labelling cycle the label timer
is re-armed for exactly the configured sleep interval when that interval is
positive, and the cycle itself never re-arms it otherwise. -/
theorem c9_label_timer_rearm (s : WorkerState) (advOk : Bool) (d : Int)
    (hos : s.oneshot = false)
    (hadv : s.client.isSome = true → advOk = true) :
    LoopAct.armLabelTimer d ∈ stepActions (step s (Event.labelTimer advOk)) ↔
      (0 < s.sleepInterval ∧ d = s.sleepInterval) := by
  by_cases hcl : s.client.isSome = true
  · have ha := hadv hcl
    subst ha
    by_cases hsi : 0 < s.sleepInterval
    · simp [step, hcl, hos, hsi, stepActions]
    · simp [step, hcl, hos, hsi, stepActions]
  · by_cases hsi : 0 < s.sleepInterval
    · simp [step, hcl, hos, hsi, stepActions]
    · simp [step, hcl, hos, hsi, stepActions]

/-- A connected worker state with a five-second sleep interval. -/
def wSleep : WorkerState := ⟨some (), ⟨false⟩, false, 5000000000⟩

/-- Witness for C9: the connected five-second worker re-arms the label
timer for exactly five seconds. -/
theorem c9_witness :
    LoopAct.armLabelTimer 5000000000 ∈
      stepActions (step wSleep (Event.labelTimer true)) :=
  (c9_label_timer_rearm wSleep true 5000000000 rfl (fun _ => rfl)).mpr
    ⟨by decide, rfl⟩

/-!
`NewNfdWorker` (lines 93-177). Go copies the `Args` struct VALUE into the
worker at the struct literal (line 94, `args: args`) BEFORE the
sleep-interval clamp at lines 104-107 runs; the clamp assigns to the
function-local copy `args`, whose `SleepInterval` field is never read
again afterwards, so the clamp never reaches the worker that `Run` later
consults (`w.args.SleepInterval`, lines 259-260), even though the warning
it logs says "forcing to 1s". The embedding mirrors Go value semantics by
building the worker record first and applying the clamp to a separate
local value. `time.Duration` is int64 nanoseconds; `time.Second` is 10^9.
-/

/-- Command line arguments (`Args`), restricted to the fields that
`NewNfdWorker` stores or that the modelled checks read. `sleepInterval` is
in nanoseconds (Go `time.Duration`). -/
structure NfdArgs where
  labelWhiteList : String
  caFile : String
  certFile : String
  keyFile : String
  configFile : String
  oneshot : Bool
  server : String
  sleepInterval : Int
  sources : List String
  noPublish : Option Bool
deriving DecidableEq

/-- `time.Second` in nanoseconds. -/
def nanosPerSecond : Int := 1000000000

/-- The worker record returned by `NewNfdWorker`, restricted to the stored
args (the field `Run` reads the sleep interval from). -/
structure NfdWorkerRec where
  args : NfdArgs
deriving DecidableEq

/-- `NewNfdWorker`: builds the worker (copying the args value, line 94),
then clamps the LOCAL args' sleep interval to one second when it is
strictly between zero and one second (lines 104-107), then runs the TLS
cross-checks on the local args (lines 110-120). Returns the worker and the
optional construction error. Source selection and regex compilation touch
none of the modelled fields. -/
def newNfdWorker (args : NfdArgs) : NfdWorkerRec × Option String :=
  let nfd : NfdWorkerRec := { args := args }
  let argsL : NfdArgs :=
    if 0 < args.sleepInterval ∧ args.sleepInterval < nanosPerSecond then
      { args with sleepInterval := nanosPerSecond }
    else args
  if argsL.certFile ≠ "" ∨ argsL.keyFile ≠ "" ∨ argsL.caFile ≠ "" then
    if argsL.certFile = "" then
      (nfd, some "--cert-file needs to be specified alongside --key-file and --ca-file")
    else if argsL.keyFile = "" then
      (nfd, some "--key-file needs to be specified alongside --cert-file and --ca-file")
    else if argsL.caFile = "" then
      (nfd, some "--ca-file needs to be specified alongside --cert-file and --key-file")
    else (nfd, none)
  else (nfd, none)

/-- A request with a half-second sleep interval, inside the clamp range. -/
def argsHalfSec : NfdArgs :=
  { labelWhiteList := "", caFile := "", certFile := "", keyFile := "",
    configFile := "", oneshot := false, server := "",
    sleepInterval := 500000000, sources := ["all"], noPublish := none }

/-- Claim C10 fails on the code: a requested interval of half a second is
strictly between zero and one second, construction succeeds, yet the
constructed worker still stores half a second rather than one second — the
clamp of lines 104-107 mutates a function-local copy made after the worker
already copied the args, so the replacement the claim (and the logged
warning) describes never reaches the worker. -/
theorem c10_sleep_clamp_is_lost :
    (newNfdWorker argsHalfSec).2 = none ∧
    0 < argsHalfSec.sleepInterval ∧
    argsHalfSec.sleepInterval < nanosPerSecond ∧
    (newNfdWorker argsHalfSec).1.args.sleepInterval = 500000000 ∧
    (newNfdWorker argsHalfSec).1.args.sleepInterval ≠ nanosPerSecond := by
  refine ⟨by decide, by decide, by decide, by decide, by decide⟩
